import Mathlib

/-!
Shallow embedding of the C2FC runtime module (src/runtime/src/c2fc.rs).

Modelling conventions:
  * `T::Hash`, `T::AccountId` are abstract identifiers, modelled as `Nat`.
  * `T::Balance` and `T::BlockNumber` are unsigned machine integers; the source
    converts them from `u64` (the `As<u64>` bound) and type-puns
    `crate::BlockNumber::max_value()` into `T::BlockNumber`, so both are
    modelled as 64-bit naturals: stored values live below `W = 2 ^ 64` and the
    raw Rust `+` / `-` of the runtime (release build, wrapping) are modelled as
    addition and subtraction modulo `W`.  `checked_add` / `checked_sub` of the
    source are modelled by the `Option`-valued `checked_add` / `checked_sub`.
  * A storage map `map K => V` is a function `Nat -> Option V); `exists` is
    `Option.isSome` and a bare `get` returns the `Default` value on a missing
    key (`Option.getD`).  Storage values (`u64` counters) are plain `Nat`.
  * Each dispatchable becomes a function `... -> St -> Option Err × St`.
    The runtime of this era has no transactional storage: an `Err` returned
    after some writes leaves those writes in place, which the embedding
    reproduces by returning the partially-updated state with the error.
  * The Rust `&static str` error messages become constructors of `Err`;
    each constructor carries a comment citing the message it stands for.
  * Events are accumulated in `St.events`, oldest first.
-/

namespace C2FC

/-- Word size of the modelled machine integers (u64). -/
def W : Nat := 2 ^ 64

/-- Checked u64 addition, as `u64::checked_add` of the source. -/
def checked_add (a b : Nat) : Option Nat :=
  if a + b < W then some (a + b) else none

/-- Checked u64 subtraction, as `u64::checked_sub` of the source. -/
def checked_sub (a b : Nat) : Option Nat :=
  if b ≤ a then some (a - b) else none

/-- Wrapping u64 addition (raw Rust `+` in the release-built runtime). -/
def wadd (a b : Nat) : Nat := (a + b) % W

/-- Wrapping u64 subtraction (raw Rust `-` in the release-built runtime);
correct two-complement behaviour for operands below `W`. -/
def wsub (a b : Nat) : Nat := (a + W - b) % W

/-- The attached promise record (struct `Promise` of the source). -/
structure Promise where
  id : Nat
  owner : Nat
  value : Nat
  period : Nat
  untl : Option Nat   -- source field name: until (a Lean keyword)
  filled : Nat
  acception_dt : Nat
  deriving Repr, DecidableEq

/-- The unattached promise record (struct `FreePromise` of the source). -/
structure FreePromise where
  id : Nat
  value : Nat
  period : Nat
  untl : Option Nat   -- source field name: until (a Lean keyword)
  deriving Repr, DecidableEq

/-- The slot record (struct `Bucket` of the source). -/
structure Bucket where
  id : Nat
  promise : Option Promise
  price : Nat
  deriving Repr, DecidableEq

/-- Rust `Default` for `Bucket` (all-zero, no promise). -/
def Bucket.default : Bucket := { id := 0, promise := none, price := 0 }

/-- Rust `Default` for `FreePromise`. -/
def FreePromise.default : FreePromise := { id := 0, value := 0, period := 0, untl := none }

/-- A balance lock held by the external ledger (`balances::BalanceLock`);
the `LockIdentifier` (8 little-endian bytes of a u64 counter) is modelled by
the counter value itself, the encoding being injective on u64. -/
structure BalanceLock where
  id : Nat
  amount : Nat
  untl : Nat   -- source field name: until
  deriving Repr, DecidableEq

/-- The events of `decl_event!` in the source (field-for-field). -/
inductive Event where
  | BucketCreated (who bucket_id : Nat)
  | PriceSet (who bucket_id price : Nat)
  | Transferred (source dest bucket_id : Nat)
  | Bought (buyer seller bucket_id price : Nat)
  | PromiseCreated (who promise_id : Nat)
  | PromiseChanged (promise_id : Nat)
  | PromiseAccepted (promise_id bucket_id : Nat)
  | PromiseFilled (bucket_id promise_id value : Nat)
  | PromiseFullilled (bucket_id promise_id : Nat)
  | PromiseBreached (bucket_id promise_id missed_deposit : Nat)
  | Stake (promise_id who amount : Nat)
  | Withdraw (promise_id who amount : Nat)
  deriving Repr, DecidableEq

/-- The typed counterparts of the `&static str` error messages of the source
(one constructor per distinct message; comments cite the message). -/
inductive Err where
  /-- message: This promise does not exist -/
  | promiseNotExists
  /-- message: No owner for this promise -/
  | noOwnerForPromise
  /-- message: You do not own this promise -/
  | notPromiseOwner
  /-- message: This bucket does not exist -/
  | bucketNotExists
  /-- message: No owner for this bucket -/
  | noOwnerForBucket
  /-- message: You do not own this bucket -/
  | notBucketOwner
  /-- message (stake): Bucket doesnt contains promise -/
  | bucketNoPromiseStake
  /-- message (fill): This bucket does not contains promise -/
  | bucketNoPromiseFill
  /-- message: Lock not found -/
  | lockNotFound
  /-- message: Incorrect length of locks with same ID. WTF?! -/
  | incorrectLocksLen
  /-- a `lock.unwrap()` panic on `None` (dead code in the source) -/
  | panicUnwrapNone
  /-- message: This promise is already accepted -/
  | alreadyAccepted
  /-- message: You can not accept your own promise -/
  | acceptOwnPromise
  /-- message: Bucket already contains another promise -/
  | bucketHasPromise
  /-- message: Overflow adding a new promise to total supply -/
  | overflowAcceptedCount
  /-- message: This promise already accepted so stake cannot withdraw. -/
  | stillAttached
  /-- message: This locked balance period isnt ended and stake cannot withdraw. -/
  | lockNotMature
  /-- message: You cant buy your own bucket -/
  | buyOwnBucket
  /-- message: The bucket you want to buy is not for sale -/
  | notForSale
  /-- message: The bucket you want to buy costs more than your max price -/
  | priceTooHigh
  /-- message: You cant fill your own bucket -/
  | fillOwnBucket
  /-- message: The promise in the bucket you want to fill is invalid -/
  | promiseInvalid
  /-- message: The bucket you want to fill is already fullfilled -/
  | alreadyFullfilled
  /-- message: This bucket doesnt contains an accepted promise -/
  | noAcceptedPromise
  /-- message: Transfer causes overflow of the receiving bucket balance -/
  | overflowToCount
  /-- message: Transfer causes underflow of the sending bucket balance -/
  | underflowFromCount
  /-- ledger transfer failure (balance too low) -/
  | insufficientBalance
  deriving Repr, DecidableEq

/-- Pointwise update of a one-key storage map. -/
def upd {α : Type} (m : Nat → α) (k : Nat) (v : α) : Nat → α :=
  fun k2 => if k2 = k then v else m k2

/-- Pointwise update of a two-key storage map (tuple-keyed in the source). -/
def upd2 {α : Type} (m : Nat → Nat → α) (a b : Nat) (v : α) : Nat → Nat → α :=
  fun x y => if x = a ∧ y = b then v else m x y

/-- The whole storage of `decl_storage!` of the module, plus the state of the
external balances ledger (balances and locks) and the deposited events. -/
structure St where
  buckets : Nat → Option Bucket
  bucketOwner : Nat → Option Nat
  bucketContributor : Nat → Option Nat
  allBucketsArray : Nat → Option Nat
  allBucketsCount : Nat
  allBucketsIndex : Nat → Option Nat
  ownedBucketsArray : Nat → Nat → Option Nat
  ownedBucketsCount : Nat → Nat
  ownedBucketsIndex : Nat → Option Nat
  promises : Nat → Option FreePromise
  promiseOwner : Nat → Option Nat
  freePromisesArray : Nat → Option Nat
  freePromisesCount : Nat
  freePromisesIndex : Nat → Option Nat
  ownedPromisesArray : Nat → Nat → Option Nat
  ownedPromisesCount : Nat → Nat
  ownedPromisesIndex : Nat → Option Nat
  acceptedPromisesArray : Nat → Option Nat
  acceptedPromisesCount : Nat
  acceptedPromisesIndex : Nat → Option Nat
  acceptedPromiseBucket : Nat → Option Nat
  locksCount : Nat
  lockForPromise : Nat → Option Nat
  nonce : Nat
  balances : Nat → Nat
  ledgerLocks : Nat → List BalanceLock
  events : List Event

/-- Modelled from the spec: the external ledger module (not under src) offers
`transfer(from, to, amount) -> Result` as an unconditional atomic move that
fails only on insufficient balance (spec section 6). -/
def ledger_transfer (source dest amount : Nat) (s : St) : Option Err × St :=
  if s.balances source < amount then (some .insufficientBalance, s)
  else
    let b1 := upd s.balances source (s.balances source - amount)
    (none, { s with balances := upd b1 dest (wadd (b1 dest) amount) })

/-- Modelled from the spec: the external ledger primitive
`set_lock(id, account, amount, until, reason)` creates (or replaces) the one
lock with this identifier on the account (spec section 6). -/
def ledger_set_lock (who lid amount untl : Nat) (s : St) : St :=
  let ls := ((s.ledgerLocks who).filter (fun l => l.id != lid)) ++ [⟨lid, amount, untl⟩]
  { s with ledgerLocks := upd s.ledgerLocks who ls }

/-- Modelled from the spec: the external ledger primitive
`extend_lock(id, account, new_total_amount, until, reason)` updates the lock
with this identifier to the new total amount and expiry (spec section 6). -/
def ledger_extend_lock (who lid amount untl : Nat) (s : St) : St :=
  let ls := (s.ledgerLocks who).map (fun l => if l.id == lid then ⟨lid, amount, untl⟩ else l)
  { s with ledgerLocks := upd s.ledgerLocks who ls }

/-- Modelled from the spec: the external ledger primitive
`remove_lock(id, account)` removes the lock with this identifier (spec
section 6). -/
def ledger_remove_lock (who lid : Nat) (s : St) : St :=
  let ls := (s.ledgerLocks who).filter (fun l => l.id != lid)
  { s with ledgerLocks := upd s.ledgerLocks who ls }

/-- Source `get_lock`: first lock of the account whose identifier matches. -/
def get_lock (s : St) (who lock_id : Nat) : Option BalanceLock :=
  ((s.ledgerLocks who).filter (fun l => l.id == lock_id)).head?

/-- Source `next_free_lock_identifier`: the incremented global lock counter,
little-endian encoded into the 8-byte identifier (the encoding is modelled by
the counter value itself). -/
def next_free_lock_identifier (s : St) : Nat := wadd s.locksCount 1

/-- Source dispatchable `stake_to_promise(origin, promise_id, amount)`.
Note the lock-exists branch: the source shadows the first `get_lock` result
with a duplicated lookup whose two `ensure!` guards test the opposite of
their messages (`lock.is_none()` guarded by the message Lock not found, and
`locks.next().is_some()` guarded by the incorrect-length message), so the
branch is reproduced literally, inverted guards included. -/
def stake_to_promise (sender promise_id amount : Nat) (s : St) : Option Err × St :=
  if ¬ (s.promises promise_id).isSome then (some .promiseNotExists, s) else
  match s.promiseOwner promise_id with
  | none => (some .noOwnerForPromise, s)
  | some owner =>
  if owner ≠ sender then (some .notPromiseOwner, s) else
  -- read the until-field from the accepted promise if any, else the free one
  let untilStep : Option Err ⊕ Option Nat :=
    if (s.acceptedPromiseBucket promise_id).isSome then
      let bucket_id := (s.acceptedPromiseBucket promise_id).getD 0
      let bucket := (s.buckets bucket_id).getD Bucket.default
      match bucket.promise with
      | none => Sum.inl (some .bucketNoPromiseStake)
      | some p => Sum.inr p.untl
    else
      Sum.inr ((s.promises promise_id).getD FreePromise.default).untl
  match untilStep with
  | Sum.inl e => (e, s)
  | Sum.inr u =>
  -- the unsafe type-punned end-of-the-universe sentinel: u64 max_value
  let untl := u.getD (W - 1)
  if (s.lockForPromise promise_id).isSome then
    let lock_id := (s.lockForPromise promise_id).getD 0
    -- the first get_lock result of the source is shadowed and unused
    let matching := (s.ledgerLocks sender).filter (fun l => l.id == lock_id)
    let lock := matching.head?
    if lock.isSome then (some .lockNotFound, s)
    else if ¬ ((matching.drop 1).head?).isSome then (some .incorrectLocksLen, s)
    else
      match lock with
      | none => (some .panicUnwrapNone, s)
      | some lk =>
        let s1 := ledger_extend_lock sender lock_id (wadd lk.amount amount) untl s
        (none, { s1 with events := s1.events ++ [Event.Stake promise_id sender amount] })
  else
    let lock_id := next_free_lock_identifier s
    let s1 := ledger_set_lock sender lock_id amount untl s
    let s2 := { s1 with lockForPromise := upd s1.lockForPromise promise_id (some lock_id),
                        locksCount := wadd s1.locksCount 1 }
    (none, { s2 with events := s2.events ++ [Event.Stake promise_id sender amount] })

/-- Source dispatchable `withdraw_staken(origin, promise_id)`; `now` is the
current block number read inside the body.  Note: the source looks the owner
up with `Self::owner_of`, the getter of the `BucketOwner` map, not the getter
of `PromiseOwner`, which the embedding reproduces. -/
def withdraw_staken (sender promise_id now : Nat) (s : St) : Option Err × St :=
  if ¬ (s.promises promise_id).isSome then (some .promiseNotExists, s) else
  match s.bucketOwner promise_id with
  | none => (some .noOwnerForPromise, s)
  | some owner =>
  if owner ≠ sender then (some .notPromiseOwner, s) else
  if (s.lockForPromise promise_id).isSome then
    let lock_id := (s.lockForPromise promise_id).getD 0
    let lock := get_lock s sender lock_id
    let guardErr : Option Err :=
      match lock with
      | some lk =>
        if (s.acceptedPromiseBucket promise_id).isSome then some .stillAttached
        else if ¬ (lk.untl ≤ now) then some .lockNotMature
        else none
      | none => none
    match guardErr with
    | some e => (some e, s)
    | none =>
      let free := (lock.map (fun lk => lk.amount)).getD 0
      let s1 := ledger_remove_lock sender lock_id s
      (none, { s1 with events := s1.events ++ [Event.Withdraw promise_id sender free] })
  else (none, s)

/-- Source dispatchable `edit_promise(origin, promise_id, value, period)`.
Note: as in `withdraw_staken`, the owner is read with `Self::owner_of` (the
`BucketOwner` getter), not `Self::owner_of_promise`. -/
def edit_promise (sender promise_id value period : Nat) (s : St) : Option Err × St :=
  if ¬ (s.promises promise_id).isSome then (some .promiseNotExists, s) else
  match s.bucketOwner promise_id with
  | none => (some .noOwnerForPromise, s)
  | some owner =>
  if owner ≠ sender then (some .notPromiseOwner, s) else
  let p := (s.promises promise_id).getD FreePromise.default
  let s1 := { s with promises := upd s.promises promise_id
                       (some { p with value := value, period := period }) }
  (none, { s1 with events := s1.events ++ [Event.PromiseChanged promise_id] })

/-- Source dispatchable `accept_promise(origin, promise_id, bucket_id)`;
`now` is the current block number.  The bucket update and the
`AcceptedPromiseBucket` insert happen before the checked increment of
`AcceptedPromisesCount`, exactly as in the source. -/
def accept_promise (sender promise_id bucket_id now : Nat) (s : St) : Option Err × St :=
  if ¬ (s.buckets bucket_id).isSome then (some .bucketNotExists, s) else
  if ¬ (s.promises promise_id).isSome then (some .promiseNotExists, s) else
  if (s.acceptedPromiseBucket promise_id).isSome then (some .alreadyAccepted, s) else
  match s.bucketOwner bucket_id with
  | none => (some .noOwnerForBucket, s)
  | some bucket_owner =>
  -- source message here is: You do not own this promise
  if bucket_owner ≠ sender then (some .notPromiseOwner, s) else
  match s.promiseOwner promise_id with
  | none => (some .noOwnerForPromise, s)
  | some promise_owner =>
  if promise_owner = sender then (some .acceptOwnPromise, s) else
  let bucket := (s.buckets bucket_id).getD Bucket.default
  if bucket.promise.isSome then (some .bucketHasPromise, s) else
  let fp := (s.promises promise_id).getD FreePromise.default
  let promise : Promise :=
    { id := fp.id, owner := promise_owner, value := fp.value, period := fp.period,
      untl := fp.untl, filled := 0, acception_dt := now }
  let s1 := { s with
    buckets := upd s.buckets bucket_id (some { bucket with promise := some promise }),
    acceptedPromiseBucket := upd s.acceptedPromiseBucket promise_id (some bucket_id) }
  match checked_add s1.acceptedPromisesCount 1 with
  | none => (some .overflowAcceptedCount, s1)
  | some newCount =>
    let s2 := { s1 with
      bucketContributor := upd s1.bucketContributor bucket_id (some promise_owner),
      acceptedPromisesArray := upd s1.acceptedPromisesArray s1.acceptedPromisesCount
                                 (some promise_id),
      acceptedPromisesCount := newCount,
      acceptedPromisesIndex := upd s1.acceptedPromisesIndex promise_id
                                 (some s1.acceptedPromisesCount),
      nonce := wadd s1.nonce 1 }
    (none, { s2 with events := s2.events ++ [Event.PromiseAccepted promise_id bucket_id] })

/-- Source helper `transfer_from(from, to, bucket_id)` (swap-and-pop on the
per-owner array; the global bucket registry is never touched). -/
def transfer_from (source dest bucket_id : Nat) (s : St) : Option Err × St :=
  match s.bucketOwner bucket_id with
  | none => (some .noOwnerForBucket, s)
  | some owner =>
  -- source message: the from account does not own this bucket
  if owner ≠ source then (some .notBucketOwner, s) else
  let cf := s.ownedBucketsCount source
  let ct := s.ownedBucketsCount dest
  match checked_add ct 1 with
  | none => (some .overflowToCount, s)
  | some nct =>
  match checked_sub cf 1 with
  | none => (some .underflowFromCount, s)
  | some ncf =>
  let bucket_index := (s.ownedBucketsIndex bucket_id).getD 0
  let s1 :=
    if bucket_index ≠ ncf then
      let last_bucket_id := (s.ownedBucketsArray source ncf).getD 0
      { s with
        ownedBucketsArray := upd2 s.ownedBucketsArray source bucket_index
                               (some last_bucket_id),
        ownedBucketsIndex := upd s.ownedBucketsIndex last_bucket_id (some bucket_index) }
    else s
  let s2 := { s1 with
    bucketOwner := upd s1.bucketOwner bucket_id (some dest),
    ownedBucketsIndex := upd s1.ownedBucketsIndex bucket_id (some ct) }
  let s3 := { s2 with ownedBucketsArray := upd2 s2.ownedBucketsArray source ncf none }
  let s4 := { s3 with
    ownedBucketsArray := upd2 s3.ownedBucketsArray dest ct (some bucket_id) }
  let s5 := { s4 with ownedBucketsCount := upd s4.ownedBucketsCount source ncf }
  let s6 := { s5 with ownedBucketsCount := upd s5.ownedBucketsCount dest nct }
  (none, { s6 with events := s6.events ++ [Event.Transferred source dest bucket_id] })

/-- Source dispatchable `buy_bucket(origin, bucket_id, max_price)`.  The money
transfer precedes `transfer_from`, exactly as in the source; the stale bucket
read before both is re-stored with price zero on success. -/
def buy_bucket (sender bucket_id max_price : Nat) (s : St) : Option Err × St :=
  if ¬ (s.buckets bucket_id).isSome then (some .bucketNotExists, s) else
  match s.bucketOwner bucket_id with
  | none => (some .noOwnerForBucket, s)
  | some owner =>
  if owner = sender then (some .buyOwnBucket, s) else
  let bucket := (s.buckets bucket_id).getD Bucket.default
  let bucket_price := bucket.price
  if bucket_price = 0 then (some .notForSale, s) else
  if ¬ (bucket_price ≤ max_price) then (some .priceTooHigh, s) else
  match ledger_transfer sender owner bucket_price s with
  | (some e, s1) => (some e, s1)
  | (none, s1) =>
  match transfer_from owner sender bucket_id s1 with
  | (some e, s2) => (some e, s2)
  | (none, s2) =>
    let s3 := { s2 with buckets := upd s2.buckets bucket_id (some { bucket with price := 0 }) }
    (none, { s3 with events := s3.events ++ [Event.Bought sender owner bucket_id bucket_price] })

/-- Source dispatchable `fill_bucket(origin, bucket_id, deposit)`.  The filled
field is updated with the raw wrapping `deposit + promise.filled`. -/
def fill_bucket (sender bucket_id deposit : Nat) (s : St) : Option Err × St :=
  if ¬ (s.buckets bucket_id).isSome then (some .bucketNotExists, s) else
  match s.bucketOwner bucket_id with
  | none => (some .noOwnerForBucket, s)
  | some owner =>
  if owner = sender then (some .fillOwnBucket, s) else
  let bucket := (s.buckets bucket_id).getD Bucket.default
  match bucket.promise with
  | none => (some .bucketNoPromiseFill, s)
  | some p =>
  if p.value = 0 then (some .promiseInvalid, s) else
  if ¬ (p.filled ≤ p.value) then (some .alreadyFullfilled, s) else
  match ledger_transfer sender owner deposit s with
  | (some e, s1) => (some e, s1)
  | (none, s1) =>
    let newFilled := wadd deposit p.filled
    let s2 := { s1 with events := s1.events ++ [Event.PromiseFilled bucket_id p.id deposit] }
    let s3 :=
      if p.value ≤ newFilled
      then { s2 with events := s2.events ++ [Event.PromiseFullilled bucket_id p.id] }
      else s2
    (none, { s3 with buckets := upd s3.buckets bucket_id
                       (some { bucket with promise := some { p with filled := newFilled } }) })

/-- Source dispatchable `fullfill_bucket(origin, bucket_id)`: computes the
deposit as the raw wrapping `promise.filled - promise.value` and delegates to
`fill_bucket`. -/
def fullfill_bucket (sender bucket_id : Nat) (s : St) : Option Err × St :=
  if ¬ (s.buckets bucket_id).isSome then (some .bucketNotExists, s) else
  let bucket := (s.buckets bucket_id).getD Bucket.default
  match bucket.promise with
  | none => (some .noAcceptedPromise, s)
  | some p =>
    let deposit := wsub p.filled p.value
    fill_bucket sender bucket_id deposit s

/-- One iteration of the `on_finalise` scan, for registry entry `i`: the
events it deposits, or `none` when the Rust `lifetime % promise.period` would
divide by zero (a panic). -/
def scanStep (n : Nat) (s : St) (i : Nat) : Option (List Event) :=
  let promise_id := (s.acceptedPromisesArray i).getD 0
  let bucket_id := (s.acceptedPromiseBucket promise_id).getD 0
  if (s.buckets bucket_id).isSome then
    let bucket := (s.buckets bucket_id).getD Bucket.default
    match bucket.promise with
    | some p =>
      let lifetime := wsub n p.acception_dt
      let wanted_deposit := wsub p.filled p.value
      if p.period = 0 then none
      else if lifetime % p.period = 0 then
        if 0 < wanted_deposit
        then some [Event.PromiseBreached bucket_id promise_id wanted_deposit]
        else some []
      else some []
    | none => some []
  else some []

/-- The loop of `on_finalise` over the listed registry indices. -/
def scanLoop (n : Nat) (s : St) : List Nat → Option (List Event)
  | [] => some []
  | i :: rest =>
    match scanStep n s i with
    | none => none
    | some e =>
      match scanLoop n s rest with
      | none => none
      | some es => some (e ++ es)

/-- Source hook `on_finalise(n)`: scans entries `0 .. accepted_promises_count`
of the accepted-promise registry, depositing breach events and writing no
storage; `none` models the division-by-zero panic on a zero period. -/
def on_finalise (n : Nat) (s : St) : Option St :=
  (scanLoop n s (List.range s.acceptedPromisesCount)).map
    (fun evs => { s with events := s.events ++ evs })

/-- Iterated `fill_bucket` with a list of deposits; `none` as soon as one
call fails. -/
def fillRun (sender bucket_id : Nat) : List Nat → St → Option St
  | [], s => some s
  | a :: rest, s =>
    match fill_bucket sender bucket_id a s with
    | (none, s1) => fillRun sender bucket_id rest s1
    | (some _, _) => none

/-- Recognises the PromiseFullilled event of the given bucket and promise. -/
def isFullfilledEvent (bucket_id promise_id : Nat) : Event → Bool
  | .PromiseFullilled b p => b == bucket_id && p == promise_id
  | _ => false

/-- The empty storage state (all maps empty, all counters zero). -/
def St0 : St where
  buckets := fun _ => none
  bucketOwner := fun _ => none
  bucketContributor := fun _ => none
  allBucketsArray := fun _ => none
  allBucketsCount := 0
  allBucketsIndex := fun _ => none
  ownedBucketsArray := fun _ _ => none
  ownedBucketsCount := fun _ => 0
  ownedBucketsIndex := fun _ => none
  promises := fun _ => none
  promiseOwner := fun _ => none
  freePromisesArray := fun _ => none
  freePromisesCount := 0
  freePromisesIndex := fun _ => none
  ownedPromisesArray := fun _ _ => none
  ownedPromisesCount := fun _ => 0
  ownedPromisesIndex := fun _ => none
  acceptedPromisesArray := fun _ => none
  acceptedPromisesCount := 0
  acceptedPromisesIndex := fun _ => none
  acceptedPromiseBucket := fun _ => none
  locksCount := 0
  lockForPromise := fun _ => none
  nonce := 0
  balances := fun _ => 0
  ledgerLocks := fun _ => []
  events := []

/-- Free promise used by the concrete states below. -/
def fpX : FreePromise := { id := 1, value := 100, period := 10, untl := none }

/-- Concrete state for the stake extend-path evaluation: promise 1 owned by
account 1, a recorded lock identifier 1 for it, and exactly one matching lock
on the ledger. -/
def sC1 : St := { St0 with
  promises := upd St0.promises 1 (some fpX),
  promiseOwner := upd St0.promiseOwner 1 (some 1),
  lockForPromise := upd St0.lockForPromise 1 (some 1),
  locksCount := 1,
  ledgerLocks := upd St0.ledgerLocks 1 [{ id := 1, amount := 10, untl := W - 1 }] }

/-- Attached form of `fpX`, accepted at block 3 into bucket 2. -/
def pC2 : Promise :=
  { id := 1, owner := 1, value := 100, period := 10, untl := none,
    filled := 0, acception_dt := 3 }

/-- Concrete state for the withdraw evaluation: promise 1 owned (in the
promise-owner map) by account 1, attached to bucket 2, with a recorded and
present lock; the bucket-owner map has no entry for key 1. -/
def sC2 : St := { St0 with
  promises := upd St0.promises 1 (some fpX),
  promiseOwner := upd St0.promiseOwner 1 (some 1),
  buckets := upd St0.buckets 2 (some { id := 2, promise := some pC2, price := 0 }),
  bucketOwner := upd St0.bucketOwner 2 (some 5),
  acceptedPromiseBucket := upd St0.acceptedPromiseBucket 1 (some 2),
  lockForPromise := upd St0.lockForPromise 1 (some 1),
  locksCount := 1,
  ledgerLocks := upd St0.ledgerLocks 1 [{ id := 1, amount := 10, untl := 5 }] }

/-- Concrete state for the edit evaluation: free promise 1 owned by account 1
(promise-owner map), no bucket anywhere. -/
def sC3 : St := { St0 with
  promises := upd St0.promises 1 (some fpX),
  promiseOwner := upd St0.promiseOwner 1 (some 1) }

/-- Concrete state for the fill overflow evaluation: bucket 1 owned by account
1 holds an attached promise with value and filled both at the u64 maximum;
account 2 has balance 5. -/
def pC4 : Promise :=
  { id := 10, owner := 1, value := W - 1, period := 3, untl := none,
    filled := W - 1, acception_dt := 0 }

def bC4 : Bucket := { id := 1, promise := some pC4, price := 0 }

def sC4 : St := { St0 with
  buckets := upd St0.buckets 1 (some bC4),
  bucketOwner := upd St0.bucketOwner 1 (some 1),
  balances := upd St0.balances 2 5 }

/-- Concrete state for the accept-overflow evaluation: empty bucket 2 owned by
account 1, free promise 3 owned by account 4, and the accepted-promise counter
at the u64 maximum. -/
def bC5 : Bucket := { id := 2, promise := none, price := 0 }

def fpC5 : FreePromise := { id := 3, value := 100, period := 10, untl := none }

def sC5 : St := { St0 with
  buckets := upd St0.buckets 2 (some bC5),
  bucketOwner := upd St0.bucketOwner 2 (some 1),
  promises := upd St0.promises 3 (some fpC5),
  promiseOwner := upd St0.promiseOwner 3 (some 4),
  acceptedPromisesCount := W - 1 }

/-- Concrete state for the fill-at-value evaluation: bucket 1 owned by account
1 holds an attached promise with value 5 already filled to 5; account 2 has
balance 10. -/
def pC6 : Promise :=
  { id := 10, owner := 1, value := 5, period := 3, untl := none,
    filled := 5, acception_dt := 0 }

def sC6 : St := { St0 with
  buckets := upd St0.buckets 1 (some { id := 1, promise := some pC6, price := 0 }),
  bucketOwner := upd St0.bucketOwner 1 (some 1),
  balances := upd St0.balances 2 10 }

/-- Concrete state for the fill-sequence evaluation: as `sC6` but with filled
0 and a larger balance for account 2. -/
def pC7 : Promise :=
  { id := 10, owner := 1, value := 5, period := 3, untl := none,
    filled := 0, acception_dt := 0 }

def bC7 : Bucket := { id := 1, promise := some pC7, price := 0 }

def sC7 : St := { St0 with
  buckets := upd St0.buckets 1 (some bC7),
  bucketOwner := upd St0.bucketOwner 1 (some 1),
  balances := upd St0.balances 2 100 }

/-- The attached record `accept_promise` builds from a free promise. -/
def attachRecord (fp : FreePromise) (promise_owner now : Nat) : Promise :=
  { id := fp.id, owner := promise_owner, value := fp.value, period := fp.period,
    untl := fp.untl, filled := 0, acception_dt := now }

/-- Number of fills in the list after which the running filled total has
reached the promised value (counting from a current filled amount `f`). -/
def fulfilledCount (value : Nat) : Nat → List Nat → Nat
  | _, [] => 0
  | f, a :: rest => (if value ≤ a + f then 1 else 0) + fulfilledCount value (a + f) rest

/-- True when the promise scanned at registry entry `i` (if its bucket and
embedded promise exist) has a nonzero period, so the Rust modulo in the
scanner does not panic. -/
def scanPeriodOk (s : St) (i : Nat) : Bool :=
  match s.buckets ((s.acceptedPromiseBucket ((s.acceptedPromisesArray i).getD 0)).getD 0) with
  | none => true
  | some b =>
    match b.promise with
    | none => true
    | some p => p.period != 0

/-- Breach events of registry entry `i`, as the claim words it: when the slot
and its embedded commitment exist, a Breached event (slot, commitment,
outstanding) exactly when lifetime mod period is zero and the outstanding
amount (the wrapping filled minus value of the code) is strictly positive. -/
def breachSpec (n : Nat) (s : St) (i : Nat) : List Event :=
  let promise_id := (s.acceptedPromisesArray i).getD 0
  let bucket_id := (s.acceptedPromiseBucket promise_id).getD 0
  match s.buckets bucket_id with
  | none => []
  | some b =>
    match b.promise with
    | none => []
    | some p =>
      if (wsub n p.acception_dt) % p.period = 0 ∧ 0 < wsub p.filled p.value
      then [Event.PromiseBreached bucket_id promise_id (wsub p.filled p.value)]
      else []

/-- The state after a completed scan: only the breach events of `breachSpec`
are appended; every storage item is untouched. -/
def scanOutcome (n : Nat) (s : St) : St :=
  { s with events := s.events ++
      (List.range s.acceptedPromisesCount).foldr (fun i acc => breachSpec n s i ++ acc) [] }

/-- Promise of the witness state for the full-guard theorem: filled strictly
above value. -/
def pW6 : Promise :=
  { id := 10, owner := 1, value := 5, period := 3, untl := none,
    filled := 6, acception_dt := 0 }

def bW6 : Bucket := { id := 1, promise := some pW6, price := 0 }

def sW6 : St := { St0 with
  buckets := upd St0.buckets 1 (some bW6),
  bucketOwner := upd St0.bucketOwner 1 (some 1),
  balances := upd St0.balances 2 10 }

/-- Attached promise of the scanner witness state: accepted at block 5 with
period 10 and filled 3 of 100. -/
def pW8 : Promise :=
  { id := 1, owner := 1, value := 100, period := 10, untl := none,
    filled := 3, acception_dt := 5 }

def bW8 : Bucket := { id := 2, promise := some pW8, price := 0 }

/-- Witness state for the scanner: one accepted registry entry resolving to
bucket 2 and promise 1. -/
def sW8 : St := { St0 with
  buckets := upd St0.buckets 2 (some bW8),
  bucketOwner := upd St0.bucketOwner 2 (some 4),
  acceptedPromisesArray := upd St0.acceptedPromisesArray 0 (some 1),
  acceptedPromisesCount := 1,
  acceptedPromisesIndex := upd St0.acceptedPromisesIndex 1 (some 0),
  acceptedPromiseBucket := upd St0.acceptedPromiseBucket 1 (some 2) }

/-- Witness state for the transfer frame theorem: account 1 owns buckets 5
and 6 (indices 0 and 1); the global registry lists both. -/
def sW9 : St := { St0 with
  buckets := upd (upd St0.buckets 5 (some { id := 5, promise := none, price := 0 }))
      6 (some { id := 6, promise := none, price := 0 }),
  bucketOwner := upd (upd St0.bucketOwner 5 (some 1)) 6 (some 1),
  allBucketsArray := upd (upd St0.allBucketsArray 0 (some 5)) 1 (some 6),
  allBucketsCount := 2,
  allBucketsIndex := upd (upd St0.allBucketsIndex 5 (some 0)) 6 (some 1),
  ownedBucketsArray := upd2 (upd2 St0.ownedBucketsArray 1 0 (some 5)) 1 1 (some 6),
  ownedBucketsCount := upd St0.ownedBucketsCount 1 2,
  ownedBucketsIndex := upd (upd St0.ownedBucketsIndex 5 (some 0)) 6 (some 1) }

/-- Witness state for the withdraw frame theorem: promise 1 with a recorded
lock 1 present on the ledger and matured; both owner maps point at account 1
(the bucket-owner entry is what `withdraw_staken` actually reads). -/
def sW10 : St := { St0 with
  promises := upd St0.promises 1 (some fpX),
  promiseOwner := upd St0.promiseOwner 1 (some 1),
  bucketOwner := upd St0.bucketOwner 1 (some 1),
  lockForPromise := upd St0.lockForPromise 1 (some 1),
  locksCount := 1,
  ledgerLocks := upd St0.ledgerLocks 1 [{ id := 1, amount := 10, untl := 5 }] }

/-- As `sC1` but with no matching lock on the ledger. -/
def sC1b : St := { sC1 with ledgerLocks := St0.ledgerLocks }

/-- The partially written state `accept_promise` leaves behind when the
checked increment of the accepted-promise counter overflows: the bucket
update and the promise-to-bucket map entry have already landed. -/
def acceptPartialWrite (promise_id bucket_id now : Nat) (s : St) (b : Bucket)
    (fp : FreePromise) (promise_owner : Nat) : St :=
  { s with
    buckets := upd s.buckets bucket_id
      (some { b with promise := some (attachRecord fp promise_owner now) }),
    acceptedPromiseBucket := upd s.acceptedPromiseBucket promise_id (some bucket_id) }

/-- The state a successful `transfer_from` produces (the swap-and-pop on the
per-owner array of the source owner, the append for the destination owner,
the owner-map update, both count updates and the Transferred event). -/
def transferResult (source dest bucket_id : Nat) (s : St) : St :=
  let ct := s.ownedBucketsCount dest
  let ncf := s.ownedBucketsCount source - 1
  let bucket_index := (s.ownedBucketsIndex bucket_id).getD 0
  let s1 :=
    if bucket_index ≠ ncf then
      let last_bucket_id := (s.ownedBucketsArray source ncf).getD 0
      { s with
        ownedBucketsArray := upd2 s.ownedBucketsArray source bucket_index
          (some last_bucket_id),
        ownedBucketsIndex := upd s.ownedBucketsIndex last_bucket_id (some bucket_index) }
    else s
  let s2 := { s1 with
    bucketOwner := upd s1.bucketOwner bucket_id (some dest),
    ownedBucketsIndex := upd s1.ownedBucketsIndex bucket_id (some ct) }
  let s3 := { s2 with ownedBucketsArray := upd2 s2.ownedBucketsArray source ncf none }
  let s4 := { s3 with
    ownedBucketsArray := upd2 s3.ownedBucketsArray dest ct (some bucket_id) }
  let s5 := { s4 with ownedBucketsCount := upd s4.ownedBucketsCount source ncf }
  let s6 := { s5 with ownedBucketsCount := upd s5.ownedBucketsCount dest (ct + 1) }
  { s6 with events := s6.events ++ [Event.Transferred source dest bucket_id] }

/-- The state a successful `withdraw_staken` produces when a lock was found:
the ledger lock removed and the Withdraw event carrying the freed amount. -/
def withdrawResult (sender promise_id lid freeAmt : Nat) (s : St) : St :=
  let s1 := ledger_remove_lock sender lid s
  { s1 with events := s1.events ++ [Event.Withdraw promise_id sender freeAmt] }

/-- The state a successful `fill_bucket` produces: the deposit moved from the
sender to the owner, the Filled (and possibly Fullilled) events appended, and
the filled field advanced by the wrapping sum. -/
def fillResult (sender bucket_id deposit : Nat) (s : St) (b : Bucket) (p : Promise)
    (owner : Nat) : St :=
  let b1 := upd s.balances sender (s.balances sender - deposit)
  { s with
    balances := upd b1 owner (wadd (b1 owner) deposit),
    events := (s.events ++ [Event.PromiseFilled bucket_id p.id deposit]) ++
      (if p.value ≤ wadd deposit p.filled
       then [Event.PromiseFullilled bucket_id p.id] else []),
    buckets := upd s.buckets bucket_id
      (some { b with promise := some { p with filled := wadd deposit p.filled } }) }

theorem fill_bucket_ok (sender bucket_id deposit : Nat) (s : St) (b : Bucket) (p : Promise)
    (owner : Nat)
    (hb : s.buckets bucket_id = some b) (ho : s.bucketOwner bucket_id = some owner)
    (hos : ¬ owner = sender) (hp : b.promise = some p) (hv : ¬ p.value = 0)
    (hf : p.filled ≤ p.value) (hbal : deposit ≤ s.balances sender) :
    fill_bucket sender bucket_id deposit s =
      (none, fillResult sender bucket_id deposit s b p owner) := by
  unfold fill_bucket ledger_transfer fillResult
  by_cases hfull : p.value ≤ wadd deposit p.filled <;>
    simp [hb, ho, hp, hos, hv, hf, Nat.not_lt.mpr hbal, hfull]

theorem fill_bucket_err_value_zero (sender bucket_id deposit : Nat) (s : St) (b : Bucket)
    (p : Promise) (owner : Nat)
    (hb : s.buckets bucket_id = some b) (ho : s.bucketOwner bucket_id = some owner)
    (hos : ¬ owner = sender) (hp : b.promise = some p) (hv : p.value = 0) :
    fill_bucket sender bucket_id deposit s = (some .promiseInvalid, s) := by
  unfold fill_bucket
  simp [hb, ho, hp, hos, hv]

theorem fill_bucket_err_already_full (sender bucket_id deposit : Nat) (s : St) (b : Bucket)
    (p : Promise) (owner : Nat)
    (hb : s.buckets bucket_id = some b) (ho : s.bucketOwner bucket_id = some owner)
    (hos : ¬ owner = sender) (hp : b.promise = some p) (hv : ¬ p.value = 0)
    (hf : p.value < p.filled) :
    fill_bucket sender bucket_id deposit s = (some .alreadyFullfilled, s) := by
  unfold fill_bucket
  simp [hb, ho, hp, hos, hv, Nat.not_le.mpr hf]

theorem fill_bucket_err_balance (sender bucket_id deposit : Nat) (s : St) (b : Bucket)
    (p : Promise) (owner : Nat)
    (hb : s.buckets bucket_id = some b) (ho : s.bucketOwner bucket_id = some owner)
    (hos : ¬ owner = sender) (hp : b.promise = some p) (hv : ¬ p.value = 0)
    (hf : p.filled ≤ p.value) (hbal : s.balances sender < deposit) :
    fill_bucket sender bucket_id deposit s = (some .insufficientBalance, s) := by
  unfold fill_bucket ledger_transfer
  simp [hb, ho, hp, hos, hv, hf, hbal]

theorem scanStep_eq_breachSpec (n : Nat) (s : St) (i : Nat)
    (hok : scanPeriodOk s i = true) :
    scanStep n s i = some (breachSpec n s i) := by
  unfold scanStep breachSpec
  unfold scanPeriodOk at hok
  cases hb : s.buckets ((s.acceptedPromiseBucket ((s.acceptedPromisesArray i).getD 0)).getD 0) with
  | none => simp [hb]
  | some b =>
    simp only [hb] at hok
    cases hp : b.promise with
    | none => simp [hb, hp]
    | some p =>
      simp only [hp, bne_iff_ne, ne_eq] at hok
      by_cases hz : (wsub n p.acception_dt) % p.period = 0 <;>
        by_cases hw : 0 < wsub p.filled p.value <;>
          simp [hb, hp, hok, hz, hw]

/-- C1.  The claim reads: for every commitment that already has a lock
recorded, a second successful stake call by the owner extends that same lock
with the new amount plus the currently locked amount.  In the source the
duplicated lock lookup of the extend branch has its two ensure guards
inverted relative to their messages, so the branch never reaches
`extend_lock`: with exactly one matching ledger lock it fails with the
lock-not-found message, and with none it fails with the incorrect-length
message.  Both evaluations below exhibit this on concrete states. -/
theorem c1_stake_extend_path_always_fails :
    sC1.lockForPromise 1 = some 1 ∧ get_lock sC1 1 1 = some { id := 1, amount := 10, untl := W - 1 } ∧
    stake_to_promise 1 1 5 sC1 = (some Err.lockNotFound, sC1) ∧
    stake_to_promise 1 1 5 sC1b = (some Err.incorrectLocksLen, sC1b) :=
  ⟨rfl, rfl, rfl, rfl⟩

/-- C2.  The claim reads: withdraw by the commitment owner on an attached
commitment always fails with the still-attached error.  The source looks the
owner up with `Self::owner_of` (the `BucketOwner` getter) instead of
`Self::owner_of_promise`; on `sC2` the promise-owner map gives the caller,
the commitment is attached with a live matured lock, and yet the call fails
with the no-owner-for-this-promise error because the bucket-owner map has no
entry under the promise id. -/
theorem c2_withdraw_reads_wrong_owner_map :
    sC2.promiseOwner 1 = some 1 ∧ sC2.acceptedPromiseBucket 1 = some 2 ∧
    sC2.lockForPromise 1 = some 1 ∧ sC2.bucketOwner 1 = none ∧
    withdraw_staken 1 1 20 sC2 = (some Err.noOwnerForPromise, sC2) :=
  ⟨rfl, rfl, rfl, rfl, rfl⟩

/-- C3.  The claim reads: edit on an existing free commitment succeeds
exactly when the caller is the commitment owner.  The source checks the
owner with `Self::owner_of` (the `BucketOwner` getter) instead of
`Self::owner_of_promise`: on `sC3` the caller owns promise 1 in the
promise-owner map, yet edit fails with the no-owner-for-this-promise error
because no bucket-owner entry exists under the promise id. -/
theorem c3_edit_reads_wrong_owner_map :
    sC3.promises 1 = some fpX ∧ sC3.promiseOwner 1 = some 1 ∧
    edit_promise 1 1 7 8 sC3 = (some Err.noOwnerForPromise, sC3) :=
  ⟨rfl, rfl, rfl⟩

/-- C4, counterexample.  The claim reads: arithmetic on filled and value
uses checked operations surfacing an overflow error instead of wrapping.  On
`sC4` both filled and value are at the u64 maximum; filling 1 more succeeds
(no error of any kind) and stores filled = 0, the wrapped sum. -/
theorem c4_counterexample :
    (fill_bucket 2 1 1 sC4).1 = none ∧
    ((fill_bucket 2 1 1 sC4).2.buckets 1).map (fun b => b.promise.map (fun p => p.filled)) =
      some (some 0) := by
  exact ⟨by decide, by decide⟩

/-- C4, amended.  Arithmetic on filled and value in fill, in the fulfill
shortcut, and in the tick scanner is raw wrapping u64 arithmetic with no
overflow error: a successful fill stores `(deposit + filled) mod 2 ^ 64`, the
fulfill shortcut passes the wrapping `filled - value` as the deposit, and the
scanner computes the outstanding amount as the wrapping `filled - value`;
only the registry counters use checked operations. -/
theorem c4_wrapping_arithmetic :
    (∀ sender bucket_id deposit s b p owner,
      St.buckets s bucket_id = some b → St.bucketOwner s bucket_id = some owner →
      ¬ owner = sender → Bucket.promise b = some p → ¬ Promise.value p = 0 →
      Promise.filled p ≤ Promise.value p → deposit ≤ St.balances s sender →
      fill_bucket sender bucket_id deposit s =
        (none, fillResult sender bucket_id deposit s b p owner)) ∧
    (∀ sender bucket_id s b p,
      St.buckets s bucket_id = some b → Bucket.promise b = some p →
      fullfill_bucket sender bucket_id s =
        fill_bucket sender bucket_id (wsub (Promise.filled p) (Promise.value p)) s) ∧
    (∀ n s i, scanPeriodOk s i = true → scanStep n s i = some (breachSpec n s i)) := by
  refine ⟨fun sender bucket_id deposit s b p owner hb ho hos hp hv hf hbal =>
      fill_bucket_ok sender bucket_id deposit s b p owner hb ho hos hp hv hf hbal,
    fun sender bucket_id s b p hb hp => ?_,
    fun n s i hok => scanStep_eq_breachSpec n s i hok⟩
  unfold fullfill_bucket
  simp [hb, hp]

/-- C4, witness: the fill conjunct applied at the overflowing state `sC4`. -/
theorem c4_wrapping_arithmetic_witness :
    fill_bucket 2 1 1 sC4 = (none, fillResult 2 1 1 sC4 bC4 pC4 1) :=
  c4_wrapping_arithmetic.1 2 1 1 sC4 bC4 pC4 1 rfl rfl (by decide) rfl (by decide)
    (by decide) (by decide)

/-- C5, counterexample.  The claim reads: every failing operation leaves all
storage unchanged, and in particular a failing counter-overflow check in
attach means nothing was written.  On `sC5` the accepted-promise counter is
at the u64 maximum: accept fails with the overflow error, yet the bucket now
embeds the commitment and the commitment-to-slot map entry is present. -/
theorem c5_counterexample :
    (accept_promise 1 3 2 50 sC5).1 = some Err.overflowAcceptedCount ∧
    (accept_promise 1 3 2 50 sC5).2.acceptedPromiseBucket 3 = some 2 ∧
    ((accept_promise 1 3 2 50 sC5).2.buckets 2).map (fun b => b.promise.isSome) = some true := by
  exact ⟨by decide, by decide, by decide⟩

/-- C5, amended.  Guard failures detected before any write leave storage
unchanged, but errors are not all detected before mutation: when every guard
of accept passes and the accepted-promise counter is at the u64 maximum, the
checked increment fails after the bucket update and the commitment-to-slot
map entry have landed, and exactly those two writes persist (similarly, buy
transfers the payment before the ownership transfer whose counter checks can
fail). -/
theorem c5_accept_overflow_partial_writes (sender promise_id bucket_id now : Nat) (s : St)
    (b : Bucket) (fp : FreePromise) (promise_owner : Nat)
    (hbe : s.buckets bucket_id = some b)
    (hpe : s.promises promise_id = some fp)
    (hna : s.acceptedPromiseBucket promise_id = none)
    (hbo : s.bucketOwner bucket_id = some sender)
    (hpo : s.promiseOwner promise_id = some promise_owner)
    (hps : ¬ promise_owner = sender)
    (hbp : b.promise = none)
    (hc : s.acceptedPromisesCount = W - 1) :
    accept_promise sender promise_id bucket_id now s =
      (some .overflowAcceptedCount,
        acceptPartialWrite promise_id bucket_id now s b fp promise_owner) := by
  unfold accept_promise acceptPartialWrite attachRecord
  have hW : ¬ (W - 1 + 1 < W) := by norm_num [W]
  simp [hbe, hpe, hna, hbo, hpo, hps, hbp, hc, checked_add, hW]

/-- C5, witness: the amended theorem applied at the concrete state `sC5`. -/
theorem c5_accept_overflow_witness :
    accept_promise 1 3 2 50 sC5 =
      (some .overflowAcceptedCount, acceptPartialWrite 3 2 50 sC5 bC5 fpC5 4) :=
  c5_accept_overflow_partial_writes 1 3 2 50 sC5 bC5 fpC5 4 rfl rfl rfl rfl rfl
    (by decide) rfl rfl

/-- C6, counterexample.  The claim reads: once filled has reached value
(filled at least value), any further fill fails.  On `sC6` filled equals
value (5 of 5); a further fill of 1 succeeds and stores filled = 6, because
the source guard rejects only `filled > value`. -/
theorem c6_counterexample :
    (fill_bucket 2 1 1 sC6).1 = none ∧
    ((fill_bucket 2 1 1 sC6).2.buckets 1).map (fun b => b.promise.map (fun p => p.filled)) =
      some (some 6) := by
  exact ⟨by decide, by decide⟩

/-- C6, amended.  On an existing attached commitment fillable by the caller,
fill fails (with the already-fullfilled error and unchanged state) exactly
when filled strictly exceeds value; when filled is still at most value —
including filled equal to value — the fill succeeds. -/
theorem c6_fill_guard_is_strict (sender bucket_id deposit : Nat) (s : St) (b : Bucket)
    (p : Promise) (owner : Nat)
    (hb : s.buckets bucket_id = some b) (ho : s.bucketOwner bucket_id = some owner)
    (hos : ¬ owner = sender) (hp : b.promise = some p) (hv : ¬ p.value = 0) :
    (p.value < p.filled →
      fill_bucket sender bucket_id deposit s = (some .alreadyFullfilled, s)) ∧
    (p.filled ≤ p.value → deposit ≤ s.balances sender →
      fill_bucket sender bucket_id deposit s =
        (none, fillResult sender bucket_id deposit s b p owner)) :=
  ⟨fun hf => fill_bucket_err_already_full sender bucket_id deposit s b p owner hb ho hos hp hv hf,
   fun hf hbal => fill_bucket_ok sender bucket_id deposit s b p owner hb ho hos hp hv hf hbal⟩

/-- C6, witness: the failing direction at filled 6 of value 5. -/
theorem c6_fill_guard_witness :
    fill_bucket 2 1 1 sW6 = (some Err.alreadyFullfilled, sW6) :=
  (c6_fill_guard_is_strict 2 1 1 sW6 bW6 pW6 1 rfl rfl (by decide) rfl (by decide)).1
    (by decide)

theorem fillRun_spec (sender bucket_id : Nat) (amounts : List Nat) :
    ∀ (s s2 : St) (b : Bucket) (p : Promise) (owner : Nat),
    s.buckets bucket_id = some b → s.bucketOwner bucket_id = some owner →
    ¬ owner = sender → b.promise = some p → ¬ p.value = 0 →
    p.filled + amounts.sum < W →
    fillRun sender bucket_id amounts s = some s2 →
    s2.buckets bucket_id =
      some { b with promise := some { p with filled := p.filled + amounts.sum } } ∧
    s2.events.countP (isFullfilledEvent bucket_id p.id) =
      s.events.countP (isFullfilledEvent bucket_id p.id) +
        fulfilledCount p.value p.filled amounts := by
  induction amounts with
  | nil =>
    intro s s2 b p owner hb ho hos hp hv hsum hrun
    unfold fillRun at hrun
    cases hrun
    constructor
    · show s.buckets bucket_id = some { b with promise := some p }
      rw [← hp]
      exact hb
    · simp [fulfilledCount]
  | cons a rest ih =>
    intro s s2 b p owner hb ho hos hp hv hsum hrun
    rw [List.sum_cons] at hsum
    by_cases hf : p.filled ≤ p.value
    · by_cases hbal : a ≤ s.balances sender
      · have hfill := fill_bucket_ok sender bucket_id a s b p owner hb ho hos hp hv hf hbal
        unfold fillRun at hrun
        rw [hfill] at hrun
        have hwa : wadd a p.filled = a + p.filled := by
          unfold wadd
          exact Nat.mod_eq_of_lt (lt_of_le_of_lt (by omega) hsum)
        have hrest := ih (fillResult sender bucket_id a s b p owner) s2
          { b with promise := some { p with filled := wadd a p.filled } }
          { p with filled := wadd a p.filled } owner
          (by simp [fillResult, upd]) ho hos rfl hv
          (by show wadd a p.filled + rest.sum < W
              rw [hwa]; omega)
          hrun
        constructor
        · have hnum : wadd a p.filled + rest.sum = p.filled + (a :: rest).sum := by
            rw [hwa, List.sum_cons]; omega
          rw [← hnum]
          exact hrest.1
        · have h2 := hrest.2
          have hev : (fillResult sender bucket_id a s b p owner).events.countP
              (isFullfilledEvent bucket_id p.id) =
              s.events.countP (isFullfilledEvent bucket_id p.id) +
                (if p.value ≤ wadd a p.filled then 1 else 0) := by
            by_cases hc : p.value ≤ wadd a p.filled <;>
              simp [fillResult, List.countP_append, List.countP_cons, isFullfilledEvent, hc]
          calc s2.events.countP (isFullfilledEvent bucket_id p.id)
              = (fillResult sender bucket_id a s b p owner).events.countP
                  (isFullfilledEvent bucket_id p.id) +
                fulfilledCount p.value (wadd a p.filled) rest := h2
            _ = s.events.countP (isFullfilledEvent bucket_id p.id) +
                ((if p.value ≤ wadd a p.filled then 1 else 0) +
                  fulfilledCount p.value (wadd a p.filled) rest) := by
                rw [hev]; omega
            _ = s.events.countP (isFullfilledEvent bucket_id p.id) +
                fulfilledCount p.value p.filled (a :: rest) := by
                rw [fulfilledCount, hwa]
      · have hfail := fill_bucket_err_balance sender bucket_id a s b p owner hb ho hos hp hv hf
          (Nat.not_le.mp hbal)
        unfold fillRun at hrun
        rw [hfail] at hrun
        simp at hrun
    · have hfail := fill_bucket_err_already_full sender bucket_id a s b p owner hb ho hos hp hv
        (Nat.not_le.mp hf)
      unfold fillRun at hrun
      rw [hfail] at hrun
      simp at hrun

theorem fulfilledCount_eq (value : Nat) (amounts : List Nat) : ∀ (f : Nat),
    fulfilledCount value f amounts =
      ((List.range amounts.length).filter
        (fun k => value ≤ f + (amounts.take (k + 1)).sum)).length := by
  induction amounts with
  | nil => intro f; simp [fulfilledCount]
  | cons a rest ih =>
    intro f
    rw [fulfilledCount, List.length_cons, List.range_succ_eq_map, List.filter_cons]
    have htail : List.filter (fun k => decide (value ≤ f + ((a :: rest).take (k + 1)).sum))
          ((List.range rest.length).map Nat.succ) =
        ((List.range rest.length).filter
          (fun k => decide (value ≤ (a + f) + (rest.take (k + 1)).sum))).map Nat.succ := by
      rw [List.filter_map]
      congr 1
      apply List.filter_congr
      intro k _
      simp only [Function.comp_apply, Nat.succ_eq_add_one, List.take_succ_cons,
        List.sum_cons, decide_eq_decide]
      omega
    by_cases hc : value ≤ a + f
    · have hc2 : decide (value ≤ f + ((a :: rest).take (0 + 1)).sum) = true := by
        simp; omega
      rw [hc2]
      simp only [if_pos hc, if_true, List.length_cons, htail, List.length_map]
      rw [ih (a + f)]
      omega
    · have hc2 : decide (value ≤ f + ((a :: rest).take (0 + 1)).sum) = false := by
        simp; omega
      rw [hc2]
      simp only [if_neg hc, Bool.false_eq_true, if_false, htail, List.length_map]
      rw [ih (a + f)]
      omega

/-- C7, counterexample.  The claim reads: a Fulfilled event is emitted
exactly once across a successful fill sequence.  On `sC7` (value 5, filled
0) the fills 5 then 1 both succeed and two Fulfilled events are emitted,
because a fill is still accepted while filled equals value. -/
theorem c7_counterexample :
    (fillRun 2 1 [5, 1] sC7).map
      (fun s2 => (s2.events.filter (isFullfilledEvent 1 10)).length) = some 2 := by
  decide

/-- C7, amended.  After `n` successful fills with amounts `a_1 .. a_n` on the
same attached commitment starting from filled 0 (with the mathematical sum
below `2 ^ 64`), filled equals the sum of the amounts; a Fulfilled event was
emitted at exactly those fills after which the running sum has reached value
— i.e. at the first fill reaching value and again at every later successful
fill — not exactly once. -/
theorem c7_fill_sequence (sender bucket_id : Nat) (amounts : List Nat) (s s2 : St)
    (b : Bucket) (p : Promise) (owner : Nat)
    (hb : s.buckets bucket_id = some b) (ho : s.bucketOwner bucket_id = some owner)
    (hos : ¬ owner = sender) (hp : b.promise = some p) (hv : ¬ p.value = 0)
    (h0 : p.filled = 0) (hsum : amounts.sum < W)
    (hrun : fillRun sender bucket_id amounts s = some s2) :
    s2.buckets bucket_id =
      some { b with promise := some { p with filled := amounts.sum } } ∧
    s2.events.countP (isFullfilledEvent bucket_id p.id) =
      s.events.countP (isFullfilledEvent bucket_id p.id) +
        ((List.range amounts.length).filter
          (fun k => p.value ≤ (amounts.take (k + 1)).sum)).length := by
  have hmain := fillRun_spec sender bucket_id amounts s s2 b p owner hb ho hos hp hv
    (by omega) hrun
  rw [h0] at hmain
  refine ⟨by simpa using hmain.1, ?_⟩
  rw [hmain.2, fulfilledCount_eq]
  simp

/-- C7, witness: the amended theorem applied to the two-fill run on `sC7`. -/
theorem c7_fill_sequence_witness :
    ((fillRun 2 1 [5, 1] sC7).getD St0).buckets 1 =
      some { bC7 with promise := some { pC7 with filled := [5, 1].sum } } ∧
    ((fillRun 2 1 [5, 1] sC7).getD St0).events.countP (isFullfilledEvent 1 pC7.id) =
      sC7.events.countP (isFullfilledEvent 1 pC7.id) +
        ((List.range (List.length [5, 1])).filter
          (fun k => pC7.value ≤ (List.take (k + 1) [5, 1]).sum)).length :=
  c7_fill_sequence 2 1 [5, 1] sC7 ((fillRun 2 1 [5, 1] sC7).getD St0) bC7 pC7 1
    rfl rfl (by decide) rfl (by decide) rfl (by decide) rfl

theorem scanLoop_eq (n : Nat) (s : St) : ∀ (l : List Nat),
    (∀ i ∈ l, scanPeriodOk s i = true) →
    scanLoop n s l = some (l.foldr (fun i acc => breachSpec n s i ++ acc) []) := by
  intro l
  induction l with
  | nil => intro _; rfl
  | cons i rest ih =>
    intro h
    have hi := h i (List.mem_cons_self i rest)
    have hrest := ih (fun j hj => h j (List.mem_cons_of_mem i hj))
    unfold scanLoop
    rw [scanStep_eq_breachSpec n s i hi, hrest]
    rfl

/-- C8.  On a tick where every scanned attached promise has a nonzero period
(otherwise the Rust modulo panics), the scan completes and the resulting
state is the input state with exactly the events of `breachSpec` appended:
for each registry entry whose slot and embedded commitment exist, one
Breached event (slot, commitment, outstanding) exactly when
(tick - accepted_at) mod period = 0 and the outstanding amount (the wrapping
filled - value) is strictly positive, and nothing otherwise; no storage item
changes (`scanOutcome` rebuilds the state changing only the event log). -/
theorem c8_scanner_pure_detection (n : Nat) (s : St)
    (hok : ∀ i ∈ List.range s.acceptedPromisesCount, scanPeriodOk s i = true) :
    on_finalise n s = some (scanOutcome n s) := by
  unfold on_finalise scanOutcome
  rw [scanLoop_eq n s (List.range s.acceptedPromisesCount) hok]
  rfl

/-- C8, witness: the scan of `sW8` at tick 15 (one elapsed period of 10, with
3 filled of 100, so a Breached event with the wrapping outstanding value). -/
theorem c8_scanner_witness : on_finalise 15 sW8 = some (scanOutcome 15 sW8) :=
  c8_scanner_pure_detection 15 sW8 (by decide)

theorem upd_same {α : Type} (m : Nat → α) (k : Nat) (v : α) : upd m k v k = v := by
  simp [upd]

theorem upd_ne {α : Type} (m : Nat → α) (k : Nat) (v : α) (x : Nat) (h : ¬ x = k) :
    upd m k v x = m x := by
  simp [upd, h]

theorem upd2_same {α : Type} (m : Nat → Nat → α) (a b : Nat) (v : α) : upd2 m a b v a b = v := by
  simp [upd2]

theorem upd2_ne_fst {α : Type} (m : Nat → Nat → α) (a b : Nat) (v : α) (x y : Nat)
    (h : ¬ x = a) : upd2 m a b v x y = m x y := by
  simp [upd2, h]

theorem upd2_ne_snd {α : Type} (m : Nat → Nat → α) (a b : Nat) (v : α) (x y : Nat)
    (h : ¬ y = b) : upd2 m a b v x y = m x y := by
  simp [upd2, h]

theorem transfer_from_ok (source dest bucket_id : Nat) (s : St)
    (hbo : s.bucketOwner bucket_id = some source)
    (hct : s.ownedBucketsCount dest + 1 < W)
    (hcf : 1 ≤ s.ownedBucketsCount source) :
    transfer_from source dest bucket_id s =
      (none, transferResult source dest bucket_id s) := by
  unfold transfer_from transferResult checked_add checked_sub
  simp [hbo, hct, hcf]

/-- C9.  A slot transfer succeeds exactly under these hypotheses (current
owner is the source, and the two checked counter updates fit in u64); the
resulting state leaves the global registry array, count and index untouched,
and within the per-owner array of the source only the removed slot position
changes (the formerly last element moves there); the per-owner index of every
id other than the transferred one and the formerly last one is unchanged. -/
theorem c9_transfer_frame (source dest bucket_id : Nat) (s : St)
    (hbo : s.bucketOwner bucket_id = some source)
    (hct : s.ownedBucketsCount dest + 1 < W)
    (hcf : 1 ≤ s.ownedBucketsCount source) :
    transfer_from source dest bucket_id s =
      (none, transferResult source dest bucket_id s) ∧
    (transferResult source dest bucket_id s).allBucketsArray = s.allBucketsArray ∧
    (transferResult source dest bucket_id s).allBucketsCount = s.allBucketsCount ∧
    (transferResult source dest bucket_id s).allBucketsIndex = s.allBucketsIndex ∧
    (∀ i, i + 1 < s.ownedBucketsCount source →
      ¬ i = (s.ownedBucketsIndex bucket_id).getD 0 →
      (transferResult source dest bucket_id s).ownedBucketsArray source i =
        s.ownedBucketsArray source i) ∧
    ((s.ownedBucketsIndex bucket_id).getD 0 + 1 < s.ownedBucketsCount source →
      (transferResult source dest bucket_id s).ownedBucketsArray source
          ((s.ownedBucketsIndex bucket_id).getD 0) =
        some ((s.ownedBucketsArray source (s.ownedBucketsCount source - 1)).getD 0)) ∧
    (∀ x, ¬ x = bucket_id →
      ¬ x = (s.ownedBucketsArray source (s.ownedBucketsCount source - 1)).getD 0 →
      (transferResult source dest bucket_id s).ownedBucketsIndex x =
        s.ownedBucketsIndex x) := by
  refine ⟨transfer_from_ok source dest bucket_id s hbo hct hcf, ?_, ?_, ?_, ?_, ?_, ?_⟩
  · by_cases hsw : ((s.ownedBucketsIndex bucket_id).getD 0) ≠ (s.ownedBucketsCount source - 1) <;>
      simp [transferResult, hsw]
  · by_cases hsw : ((s.ownedBucketsIndex bucket_id).getD 0) ≠ (s.ownedBucketsCount source - 1) <;>
      simp [transferResult, hsw]
  · by_cases hsw : ((s.ownedBucketsIndex bucket_id).getD 0) ≠ (s.ownedBucketsCount source - 1) <;>
      simp [transferResult, hsw]
  · intro i hi hne
    have hinc : ¬ i = s.ownedBucketsCount source - 1 := by omega
    rcases eq_or_ne source dest with hde | hde
    · subst hde
      have hict : ¬ i = s.ownedBucketsCount source := by omega
      by_cases hsw : ((s.ownedBucketsIndex bucket_id).getD 0) ≠ (s.ownedBucketsCount source - 1)
      · simp only [transferResult, if_pos hsw]
        rw [upd2_ne_snd _ _ _ _ _ _ hict, upd2_ne_snd _ _ _ _ _ _ hinc,
          upd2_ne_snd _ _ _ _ _ _ (fun h => hne h)]
      · simp only [transferResult, if_neg hsw]
        rw [upd2_ne_snd _ _ _ _ _ _ hict, upd2_ne_snd _ _ _ _ _ _ hinc]
    · by_cases hsw : ((s.ownedBucketsIndex bucket_id).getD 0) ≠ (s.ownedBucketsCount source - 1)
      · simp only [transferResult, if_pos hsw]
        rw [upd2_ne_fst _ _ _ _ _ _ hde, upd2_ne_snd _ _ _ _ _ _ hinc,
          upd2_ne_snd _ _ _ _ _ _ (fun h => hne h)]
      · simp only [transferResult, if_neg hsw]
        rw [upd2_ne_fst _ _ _ _ _ _ hde, upd2_ne_snd _ _ _ _ _ _ hinc]
  · intro hlt
    have hsw : ((s.ownedBucketsIndex bucket_id).getD 0) ≠ (s.ownedBucketsCount source - 1) := by
      omega
    have hinc : ¬ (s.ownedBucketsIndex bucket_id).getD 0 = s.ownedBucketsCount source - 1 := hsw
    rcases eq_or_ne source dest with hde | hde
    · subst hde
      have hict : ¬ (s.ownedBucketsIndex bucket_id).getD 0 = s.ownedBucketsCount source := by
        omega
      simp only [transferResult, if_pos hsw]
      rw [upd2_ne_snd _ _ _ _ _ _ hict, upd2_ne_snd _ _ _ _ _ _ hinc, upd2_same]
    · simp only [transferResult, if_pos hsw]
      rw [upd2_ne_fst _ _ _ _ _ _ hde, upd2_ne_snd _ _ _ _ _ _ hinc, upd2_same]
  · intro x hxb hxl
    by_cases hsw : ((s.ownedBucketsIndex bucket_id).getD 0) ≠ (s.ownedBucketsCount source - 1)
    · simp only [transferResult, if_pos hsw]
      rw [upd_ne _ _ _ _ hxb, upd_ne _ _ _ _ hxl]
    · simp only [transferResult, if_neg hsw]
      rw [upd_ne _ _ _ _ hxb]

/-- C9, witness: the theorem applied to the two-bucket state `sW9`
(account 1 owns buckets 5 and 6; bucket 5 at index 0 is transferred). -/
theorem c9_transfer_frame_witness :
    transfer_from 1 2 5 sW9 = (none, transferResult 1 2 5 sW9) ∧
    (transferResult 1 2 5 sW9).allBucketsCount = sW9.allBucketsCount ∧
    (transferResult 1 2 5 sW9).ownedBucketsArray 1 0 =
      some ((sW9.ownedBucketsArray 1 (sW9.ownedBucketsCount 1 - 1)).getD 0) :=
  ⟨(c9_transfer_frame 1 2 5 sW9 rfl (by decide) (by decide)).1,
   (c9_transfer_frame 1 2 5 sW9 rfl (by decide) (by decide)).2.2.1,
   (c9_transfer_frame 1 2 5 sW9 rfl (by decide) (by decide)).2.2.2.2.2.1 (by decide)⟩

/-- C10.  A successful withdraw (here: existing promise, the bucket-owner
map entry the source actually reads naming the caller, a recorded lock
present on the ledger, not attached, matured) removes the ledger lock but
leaves the promise-to-lock-identifier map and the global lock counter
unchanged; a later stake by the owner therefore takes the
extend-existing-lock branch even though no lock with that identifier remains
on the ledger — where it fails inside the branch with the
incorrect-lock-count error rather than creating a fresh lock. -/
theorem c10_withdraw_keeps_lock_map (sender promise_id now amount : Nat) (s : St)
    (fp : FreePromise) (lid : Nat) (lk : BalanceLock)
    (hpe : s.promises promise_id = some fp)
    (hbo : s.bucketOwner promise_id = some sender)
    (hpo : s.promiseOwner promise_id = some sender)
    (hlp : s.lockForPromise promise_id = some lid)
    (hgl : get_lock s sender lid = some lk)
    (hna : s.acceptedPromiseBucket promise_id = none)
    (hmat : lk.untl ≤ now) :
    withdraw_staken sender promise_id now s =
      (none, withdrawResult sender promise_id lid lk.amount s) ∧
    (withdrawResult sender promise_id lid lk.amount s).lockForPromise = s.lockForPromise ∧
    (withdrawResult sender promise_id lid lk.amount s).locksCount = s.locksCount ∧
    ((withdrawResult sender promise_id lid lk.amount s).ledgerLocks sender).filter
      (fun l => l.id == lid) = [] ∧
    stake_to_promise sender promise_id amount
        (withdrawResult sender promise_id lid lk.amount s) =
      (some .incorrectLocksLen, withdrawResult sender promise_id lid lk.amount s) := by
  have hfil : ((withdrawResult sender promise_id lid lk.amount s).ledgerLocks sender).filter
      (fun l => l.id == lid) = [] := by
    simp only [withdrawResult, ledger_remove_lock, upd_same]
    rw [List.filter_filter]
    apply List.filter_eq_nil_iff.mpr
    intro a _
    simp only [bne_iff_ne, ne_eq, Bool.and_eq_true, decide_eq_true_eq, beq_iff_eq]
    intro h
    exact absurd h.1 h.2
  refine ⟨?_, rfl, rfl, hfil, ?_⟩
  · unfold withdraw_staken withdrawResult
    simp [hpe, hbo, hlp, hgl, hna, hmat]
  · unfold stake_to_promise
    have hpe2 : (withdrawResult sender promise_id lid lk.amount s).promises promise_id =
        some fp := hpe
    have hpo2 : (withdrawResult sender promise_id lid lk.amount s).promiseOwner promise_id =
        some sender := hpo
    have hna2 : (withdrawResult sender promise_id lid lk.amount s).acceptedPromiseBucket
        promise_id = none := hna
    have hlp2 : (withdrawResult sender promise_id lid lk.amount s).lockForPromise promise_id =
        some lid := hlp
    simp [hpe2, hpo2, hna2, hlp2, hfil]

/-- C10, witness: the theorem applied at `sW10` (promise 1, lock 1 of amount
10 matured at tick 5, withdrawn at tick 7, then staked again). -/
theorem c10_withdraw_keeps_lock_map_witness :
    withdraw_staken 1 1 7 sW10 = (none, withdrawResult 1 1 1 10 sW10) ∧
    (withdrawResult 1 1 1 10 sW10).lockForPromise = sW10.lockForPromise ∧
    (withdrawResult 1 1 1 10 sW10).locksCount = sW10.locksCount ∧
    stake_to_promise 1 1 4 (withdrawResult 1 1 1 10 sW10) =
      (some .incorrectLocksLen, withdrawResult 1 1 1 10 sW10) :=
  ⟨(c10_withdraw_keeps_lock_map 1 1 7 4 sW10 fpX 1 { id := 1, amount := 10, untl := 5 }
      rfl rfl rfl rfl rfl rfl (by decide)).1,
   (c10_withdraw_keeps_lock_map 1 1 7 4 sW10 fpX 1 { id := 1, amount := 10, untl := 5 }
      rfl rfl rfl rfl rfl rfl (by decide)).2.1,
   (c10_withdraw_keeps_lock_map 1 1 7 4 sW10 fpX 1 { id := 1, amount := 10, untl := 5 }
      rfl rfl rfl rfl rfl rfl (by decide)).2.2.1,
   (c10_withdraw_keeps_lock_map 1 1 7 4 sW10 fpX 1 { id := 1, amount := 10, untl := 5 }
      rfl rfl rfl rfl rfl rfl (by decide)).2.2.2.2⟩

end C2FC
